import Mathlib

/-!
The metrics package: cluster-autoscaler/metrics/metrics.go

A shallow embedding of the metrics package of the cluster autoscaler and of the
part of the Prometheus client it calls (vectors, `WithLabelValues`, `Set`, `Inc`,
`Dec`, `Observe`, `MustRegister`).

Modelling conventions.

* The package keeps its seven vectors in package-level variables. Their static
  part (name, help, label keys) is a constant `Collector`; their dynamic part
  (the metric of every label-value tuple created so far) is a field of `State`.
  Every update function takes the state and returns the new one.
* `WithLabelValues` panics when the number of label values differs from the
  number of label keys of the vector. A panic is the result `none`.
* `time.Now()` is an input: every read of the clock is an argument of the
  function that performs it, one argument per read, in program order.
* A `time.Time` is the number of nanoseconds since the Unix epoch, a
  `time.Duration` a signed 64-bit number of nanoseconds.
* Gauge values and summary sums are binary64 numbers (`float64`) in the client
  library. Every such value this package produces is the conversion `float64(i)`
  of an integer, or the binary64 sum of two such values; these are integers, so
  a binary64 value is modelled by the integer it holds, and every conversion and
  every addition rounds to the nearest binary64 number, ties to even (`float64`
  below). Integers up to `2 ^ 53` in magnitude are not changed by the rounding.
  Magnitudes from `2 ^ 1024` on, which binary64 turns into an infinity, are
  not reached by 64-bit integers and are not treated apart.
* A counter is modelled by the number of `Inc` calls made on it, a natural
  number.
* A summary is modelled by its observation count and sum; quantiles are not
  modelled.
-/

namespace Metrics

/-! ## Time -/

/-- A `time.Time`: nanoseconds since the Unix epoch. -/
structure Time where
  nanos : Int
  deriving DecidableEq, Repr

/-- A `time.Duration`: a count of nanoseconds held in an `int64`. -/
structure Duration where
  ns : Int
  deriving DecidableEq, Repr

/-- The constant `minDuration` of package `time`. -/
def minDuration : Int := -(2 ^ 63)

/-- The constant `maxDuration` of package `time`. -/
def maxDuration : Int := 2 ^ 63 - 1

/-- The method `t.Sub(u)`: the duration `t - u`, and `maxDuration` or
`minDuration` when the difference does not fit a `Duration`. -/
def Time.Sub (t u : Time) : Duration :=
  let d := t.nanos - u.nanos
  if d > maxDuration then ⟨maxDuration⟩
  else if d < minDuration then ⟨minDuration⟩
  else ⟨d⟩

/-- The method `d.Nanoseconds()`: the duration as an `int64`. -/
def Duration.Nanoseconds (d : Duration) : Int := d.ns

/-- The method `t.Unix()`: whole seconds since the Unix epoch (rounded down). -/
def Time.Unix (t : Time) : Int := t.nanos / 1000000000

/-- The spacing of the binary64 numbers around `n`: the least power of two `u`
with `n / u < 2 ^ 53` (a binary64 number has 53 significant bits). The first
argument bounds the number of halvings; `n` itself is always enough. -/
def ulp : Nat → Nat → Nat
  | 0, _ => 1
  | fuel + 1, n => if n < 2 ^ 53 then 1 else 2 * ulp fuel (n / 2)

/-- The multiple of `u` nearest to `n`; of two nearest multiples the even one. -/
def roundToEven (n u : Nat) : Nat :=
  if 2 * (n % u) < u then n / u * u
  else if 2 * (n % u) = u ∧ n / u % 2 = 0 then n / u * u
  else (n / u + 1) * u

/-- The conversion `float64(i)` of an integer: the binary64 number nearest to `i`,
ties to even, as the integer it holds. `float64 (a + b)` is also the binary64 sum
of two binary64 numbers that hold the integers `a` and `b`. -/
def float64 (i : Int) : Int :=
  i.sign * (roundToEven i.natAbs (ulp i.natAbs i.natAbs) : Nat)

/-! ## The Prometheus client -/

/-- The label values of one metric of a vector, in the order of the label keys. -/
abbrev LabelValues := List String

/-- The fields of `GaugeOpts`, `SummaryOpts` and `CounterOpts` that the package sets. -/
structure Opts where
  Namespace : String
  Subsystem : String := ""
  Name : String
  Help : String
  deriving DecidableEq, Repr

/-- The function `prometheus.BuildFQName`: namespace, subsystem and name joined by
an underscore, leaving out the empty ones; empty when the name is empty. -/
def BuildFQName (ns subsystem name : String) : String :=
  if name = "" then ""
  else if ns ≠ "" ∧ subsystem ≠ "" then String.intercalate "_" [ns, subsystem, name]
  else if ns ≠ "" then String.intercalate "_" [ns, name]
  else if subsystem ≠ "" then String.intercalate "_" [subsystem, name]
  else name

/-- A `prometheus.Desc`: fully qualified name, help text and label keys. -/
structure Desc where
  fqName : String
  help : String
  variableLabels : List String
  deriving DecidableEq, Repr

/-- The kind of metric a vector holds. -/
inductive Kind where
  | gauge
  | summary
  | counter
  deriving DecidableEq, Repr

/-- The static part of a metric vector: its kind and its descriptor. -/
structure Collector where
  kind : Kind
  desc : Desc
  deriving DecidableEq, Repr

/-- The descriptor a vector constructor builds from its options and label keys. -/
def NewDesc (opts : Opts) (labelNames : List String) : Desc :=
  { fqName := BuildFQName opts.Namespace opts.Subsystem opts.Name
    help := opts.Help
    variableLabels := labelNames }

/-- The constructor `prometheus.NewGaugeVec`. -/
def NewGaugeVec (opts : Opts) (labelNames : List String) : Collector :=
  { kind := Kind.gauge, desc := NewDesc opts labelNames }

/-- The constructor `prometheus.NewSummaryVec`. -/
def NewSummaryVec (opts : Opts) (labelNames : List String) : Collector :=
  { kind := Kind.summary, desc := NewDesc opts labelNames }

/-- The constructor `prometheus.NewCounterVec`. -/
def NewCounterVec (opts : Opts) (labelNames : List String) : Collector :=
  { kind := Kind.counter, desc := NewDesc opts labelNames }

/-- The metrics of a vector: the metric of every label-value tuple that has been
created, `none` for a tuple never used. -/
abbrev Family (α : Type) := LabelValues → Option α

/-- A metric handed out by a vector: the family with the metric in it, the label
values that identify it, and its current value. -/
structure Metric (α : Type) where
  family : Family α
  lvs : LabelValues
  value : α

/-- The get-or-create step of `WithLabelValues`: the metric for `lvs`, created
with the value `new` when the tuple was never used. -/
def getOrCreate {α : Type} (new : α) (m : Family α) (lvs : LabelValues) : Metric α :=
  let v := (m lvs).getD new
  { family := fun l => if l = lvs then some v else m l
    lvs := lvs
    value := v }

/-- The method `WithLabelValues` of a vector: `none` (a panic) when the number of
label values is not the number of label keys, the metric otherwise. -/
def WithLabelValues {α : Type} (c : Collector) (new : α) (m : Family α)
    (lvs : LabelValues) : Option (Metric α) :=
  if lvs.length ≠ c.desc.variableLabels.length then none
  else some (getOrCreate new m lvs)

/-- Store `v` as the value of the metric; the result is the family afterwards. -/
def Metric.store {α : Type} (x : Metric α) (v : α) : Family α :=
  fun l => if l = x.lvs then some v else x.family l

/-- The method `Gauge.Set`. -/
def Gauge.Set (g : Metric Int) (v : Int) : Family Int := g.store v

/-- The method `Gauge.Inc`: the binary64 sum of the value and 1. -/
def Gauge.Inc (g : Metric Int) : Family Int := g.store (float64 (g.value + 1))

/-- The method `Gauge.Dec`: the binary64 sum of the value and -1. -/
def Gauge.Dec (g : Metric Int) : Family Int := g.store (float64 (g.value + -1))

/-- The method `Counter.Inc`. The count of calls is kept as a natural number. -/
def Counter.Inc (c : Metric Nat) : Family Nat := c.store (c.value + 1)

/-- The count (an integer) and the sum (a binary64 number) of the observations of
a summary. -/
structure Summary where
  count : Nat
  sum : Int
  deriving DecidableEq, Repr

/-- A summary without observations. -/
def Summary.new : Summary := { count := 0, sum := 0 }

/-- The method `Summary.Observe`: one more observation, and the binary64 sum of
the sum so far and `v`. -/
def Summary.Observe (x : Metric Summary) (v : Int) : Family Summary :=
  x.store { count := x.value.count + 1, sum := float64 (x.value.sum + v) }

/-- The registered collectors of the default registry, by descriptor, in
registration order. -/
abbrev Registry := List Desc

/-- The function `prometheus.MustRegister` for one collector: `none` (a panic)
when a collector with the same fully qualified name is registered already. -/
def MustRegister (r : Registry) (c : Collector) : Option Registry :=
  if r.any (fun d => d.fqName = c.desc.fqName) then none
  else some (r ++ [c.desc])

/-! ## The package -/

/-- The variable `lastTimestamp`. -/
def lastTimestamp : Collector :=
  NewGaugeVec
    { Namespace := "cluster_autoscaler"
      Name := "last_time_seconds"
      Help := "Last time CA run some main loop fragment." }
    ["main"]

/-- The variable `lastDuration`. -/
def lastDuration : Collector :=
  NewGaugeVec
    { Namespace := "cluster_autoscaler"
      Name := "last_duration_microseconds"
      Help := "Time spent in last main loop fragments in microseconds." }
    ["main"]

/-- The variable `duration`. -/
def duration : Collector :=
  NewSummaryVec
    { Namespace := "cluster_autoscaler"
      Name := "duration_microseconds"
      Help := "Time spent in main loop fragments in microseconds." }
    ["main"]

/-- The variable `nodegroupminstate`. -/
def nodegroupminstate : Collector :=
  NewGaugeVec
    { Namespace := "cluster_autoscaler"
      Name := "node_group_min_spec"
      Help := "Current minimum bound of the node group." }
    ["node_group"]

/-- The variable `nodegroupmaxstate`. -/
def nodegroupmaxstate : Collector :=
  NewGaugeVec
    { Namespace := "cluster_autoscaler"
      Name := "node_group_max_spec"
      Help := "Current maximum bound of the node group." }
    ["node_group"]

/-- The variable `nodegroupstate`. -/
def nodegroupstate : Collector :=
  NewGaugeVec
    { Namespace := "cluster_autoscaler"
      Name := "node_group_size"
      Help := "Current size of the node group." }
    ["node_group"]

/-- The variable `scalefailures`. -/
def scalefailures : Collector :=
  NewCounterVec
    { Namespace := "cluster_autoscaler"
      Name := "node_group_scaling_failures"
      Help := "Current size of the node group." }
    ["node_group", "type"]

/-- The metrics of the seven vectors. -/
structure State where
  lastTimestamp : Family Int
  lastDuration : Family Int
  duration : Family Summary
  nodegroupminstate : Family Int
  nodegroupmaxstate : Family Int
  nodegroupstate : Family Int
  scalefailures : Family Nat

/-- The state at process start: no metric has been created. -/
def State.empty : State :=
  { lastTimestamp := fun _ => none
    lastDuration := fun _ => none
    duration := fun _ => none
    nodegroupminstate := fun _ => none
    nodegroupmaxstate := fun _ => none
    nodegroupstate := fun _ => none
    scalefailures := fun _ => none }

/-- The function `init`, run on the registry `r`. -/
def init (r : Registry) : Option Registry := do
  let r1 ← MustRegister r duration
  let r2 ← MustRegister r1 lastDuration
  MustRegister r2 lastTimestamp

/-- The function `durationToMicro`; `now` is the value `time.Now()` returns. -/
def durationToMicro (now start : Time) : Int :=
  float64 (Int.tdiv (now.Sub start).Nanoseconds 1000)

/-- The function `UpdateDuration`; `now1` and `now2` are the values of the two
reads of the clock, the first for the observation and the second for the gauge. -/
def UpdateDuration (s : State) (label : String) (start now1 now2 : Time) : Option State := do
  let o ← WithLabelValues duration Summary.new s.duration [label]
  let s1 := { s with duration := Summary.Observe o (durationToMicro now1 start) }
  let g ← WithLabelValues lastDuration 0 s1.lastDuration [label]
  pure { s1 with lastDuration := Gauge.Set g (durationToMicro now2 start) }

/-- The function `UpdateLastTime`; `now` is the value `time.Now()` returns. -/
def UpdateLastTime (s : State) (label : String) (now : Time) : Option State := do
  let g ← WithLabelValues lastTimestamp 0 s.lastTimestamp [label]
  pure { s with lastTimestamp := Gauge.Set g (float64 now.Unix) }

/-- The function `UpdateNodeGroupMinState`. -/
def UpdateNodeGroupMinState (s : State) (nodegroup : String) (min : Int) : Option State := do
  let g ← WithLabelValues nodegroupminstate 0 s.nodegroupminstate [nodegroup]
  pure { s with nodegroupminstate := Gauge.Set g (float64 min) }

/-- The function `UpdateNodeGroupMaxState`. -/
def UpdateNodeGroupMaxState (s : State) (nodegroup : String) (max : Int) : Option State := do
  let g ← WithLabelValues nodegroupmaxstate 0 s.nodegroupmaxstate [nodegroup]
  pure { s with nodegroupmaxstate := Gauge.Set g (float64 max) }

/-- The function `UpdateNodeGroupState`. -/
def UpdateNodeGroupState (s : State) (nodegroup : String) (current : Int) : Option State := do
  let g ← WithLabelValues nodegroupstate 0 s.nodegroupstate [nodegroup]
  pure { s with nodegroupstate := Gauge.Set g (float64 current) }

/-- The function `UpdateNodeRemoved`. -/
def UpdateNodeRemoved (s : State) (nodegroup : String) : Option State := do
  let g ← WithLabelValues nodegroupstate 0 s.nodegroupstate [nodegroup]
  pure { s with nodegroupstate := Gauge.Dec g }

/-- The function `UpdateNodeAdded`. -/
def UpdateNodeAdded (s : State) (nodegroup : String) : Option State := do
  let g ← WithLabelValues nodegroupstate 0 s.nodegroupstate [nodegroup]
  pure { s with nodegroupstate := Gauge.Inc g }

/-- The function `UpdateScaleFailures`. -/
def UpdateScaleFailures (s : State) (nodegroup failuretype : String) : Option State := do
  let c ← WithLabelValues scalefailures 0 s.scalefailures [nodegroup, failuretype]
  pure { s with scalefailures := Counter.Inc c }

/-! ## Calls and sequences of calls -/

/-- One call of an update function with its arguments (and clock reads). -/
inductive Call where
  | UpdateDuration (label : String) (start now1 now2 : Time)
  | UpdateLastTime (label : String) (now : Time)
  | UpdateNodeGroupMinState (nodegroup : String) (min : Int)
  | UpdateNodeGroupMaxState (nodegroup : String) (max : Int)
  | UpdateNodeGroupState (nodegroup : String) (current : Int)
  | UpdateNodeRemoved (nodegroup : String)
  | UpdateNodeAdded (nodegroup : String)
  | UpdateScaleFailures (nodegroup failuretype : String)
  deriving DecidableEq, Repr

/-- Run one call on a state. -/
def Call.run (s : State) : Call → Option State
  | Call.UpdateDuration label start now1 now2 => Metrics.UpdateDuration s label start now1 now2
  | Call.UpdateLastTime label now => Metrics.UpdateLastTime s label now
  | Call.UpdateNodeGroupMinState nodegroup min => Metrics.UpdateNodeGroupMinState s nodegroup min
  | Call.UpdateNodeGroupMaxState nodegroup max => Metrics.UpdateNodeGroupMaxState s nodegroup max
  | Call.UpdateNodeGroupState nodegroup current => Metrics.UpdateNodeGroupState s nodegroup current
  | Call.UpdateNodeRemoved nodegroup => Metrics.UpdateNodeRemoved s nodegroup
  | Call.UpdateNodeAdded nodegroup => Metrics.UpdateNodeAdded s nodegroup
  | Call.UpdateScaleFailures nodegroup failuretype =>
      Metrics.UpdateScaleFailures s nodegroup failuretype

/-- Run a sequence of calls, one after the other; `none` as soon as one panics. -/
def runCalls (s : State) : List Call → Option State
  | [] => some s
  | c :: cs => (c.run s).bind (fun s1 => runCalls s1 cs)

/-- The call `UpdateScaleFailures` of a (node group, failure type) pair. -/
def failureCall (p : String × String) : Call := Call.UpdateScaleFailures p.1 p.2

/-- The value of `node_group_size` for node group `g`; a metric never used counts
as its initial value zero. -/
def State.nodeGroupSize (s : State) (g : String) : Int := (s.nodegroupstate [g]).getD 0

/-- The value of `node_group_scaling_failures` for `g` and `t`; a metric never used
counts as its initial value zero. -/
def State.scaleFailureCount (s : State) (g t : String) : Nat := (s.scalefailures [g, t]).getD 0

/-- The summary of `duration_microseconds` for `label`; a metric never used counts
as a summary without observations. -/
def State.durationSummary (s : State) (label : String) : Summary :=
  (s.duration [label]).getD Summary.new

/-! ## The state as one mapping from (series, label values) to value -/

/-- The seven series of the data model. -/
inductive Series where
  | last_time_seconds
  | last_duration_microseconds
  | duration_microseconds
  | node_group_min_spec
  | node_group_max_spec
  | node_group_size
  | node_group_scaling_failures
  deriving DecidableEq, Repr

/-- The vector that holds a series. -/
def Series.collector : Series → Collector
  | Series.last_time_seconds => lastTimestamp
  | Series.last_duration_microseconds => lastDuration
  | Series.duration_microseconds => duration
  | Series.node_group_min_spec => nodegroupminstate
  | Series.node_group_max_spec => nodegroupmaxstate
  | Series.node_group_size => nodegroupstate
  | Series.node_group_scaling_failures => scalefailures

/-- All series, in the order of the table of the data model. -/
def Series.all : List Series :=
  [Series.last_time_seconds, Series.last_duration_microseconds, Series.duration_microseconds,
   Series.node_group_min_spec, Series.node_group_max_spec, Series.node_group_size,
   Series.node_group_scaling_failures]

/-- The value of a series instance. -/
inductive Sample where
  | gauge (v : Int)
  | counter (v : Nat)
  | summary (v : Summary)
  deriving DecidableEq, Repr

/-- The value of the series instance `(x, l)`, `none` when it was never created. -/
def State.read (s : State) : Series → LabelValues → Option Sample
  | Series.last_time_seconds, l => (s.lastTimestamp l).map Sample.gauge
  | Series.last_duration_microseconds, l => (s.lastDuration l).map Sample.gauge
  | Series.duration_microseconds, l => (s.duration l).map Sample.summary
  | Series.node_group_min_spec, l => (s.nodegroupminstate l).map Sample.gauge
  | Series.node_group_max_spec, l => (s.nodegroupmaxstate l).map Sample.gauge
  | Series.node_group_size, l => (s.nodegroupstate l).map Sample.gauge
  | Series.node_group_scaling_failures, l => (s.scalefailures l).map Sample.counter

/-- The series instances a call names: the instances the specification says the
operation writes. -/
def Call.names : Call → List (Series × LabelValues)
  | Call.UpdateDuration label _ _ _ =>
      [(Series.duration_microseconds, [label]), (Series.last_duration_microseconds, [label])]
  | Call.UpdateLastTime label _ => [(Series.last_time_seconds, [label])]
  | Call.UpdateNodeGroupMinState nodegroup _ => [(Series.node_group_min_spec, [nodegroup])]
  | Call.UpdateNodeGroupMaxState nodegroup _ => [(Series.node_group_max_spec, [nodegroup])]
  | Call.UpdateNodeGroupState nodegroup _ => [(Series.node_group_size, [nodegroup])]
  | Call.UpdateNodeRemoved nodegroup => [(Series.node_group_size, [nodegroup])]
  | Call.UpdateNodeAdded nodegroup => [(Series.node_group_size, [nodegroup])]
  | Call.UpdateScaleFailures nodegroup failuretype =>
      [(Series.node_group_scaling_failures, [nodegroup, failuretype])]

/-! ## Rounding to binary64 -/

theorem ulp_of_lt (fuel n : Nat) (h : n < 2 ^ 53) : ulp fuel n = 1 := by
  cases fuel with
  | zero => rfl
  | succ f => rw [ulp, if_pos h]

theorem ulp_pos (fuel n : Nat) : 0 < ulp fuel n := by
  induction fuel generalizing n with
  | zero => exact Nat.one_pos
  | succ f ih =>
    rw [ulp]
    split
    · exact Nat.one_pos
    · have := ih (n / 2)
      omega

/-- The spacing is a power of two `2 ^ k` with `n < 2 ^ 53 * 2 ^ k`, and with
`2 ^ 52 * 2 ^ k ≤ n` unless `k = 0`. -/
theorem ulp_spec (fuel n : Nat) (h : n ≤ fuel) :
    ∃ k, ulp fuel n = 2 ^ k ∧ n < 2 ^ 53 * 2 ^ k ∧ (k ≠ 0 → 2 ^ 52 * 2 ^ k ≤ n) := by
  induction fuel generalizing n with
  | zero =>
    refine ⟨0, rfl, ?_, fun h0 => absurd rfl h0⟩
    have : n = 0 := by omega
    subst this
    decide
  | succ f ih =>
    by_cases hn : n < 2 ^ 53
    · exact ⟨0, by rw [ulp, if_pos hn, pow_zero], by rw [pow_zero, mul_one]; exact hn,
        fun h0 => absurd rfl h0⟩
    · have hn' : 2 ^ 53 ≤ n := Nat.le_of_not_lt hn
      obtain ⟨k, hk, hlt, hge⟩ := ih (n / 2) (by omega)
      have e : 2 ^ (k + 1) = 2 * 2 ^ k := by rw [pow_succ, Nat.mul_comm]
      refine ⟨k + 1, ?_, ?_, ?_⟩
      · rw [ulp, if_neg hn, hk, e]
      · rw [e]
        omega
      · intro _
        rw [e]
        by_cases hk0 : k = 0
        · subst hk0
          rw [pow_zero]
          omega
        · have := hge hk0
          omega

theorem roundToEven_one (n : Nat) : roundToEven n 1 = n := by
  simp [roundToEven, Nat.mod_one]

theorem roundToEven_bounds (n u : Nat) (hu : 0 < u) :
    n / u * u ≤ roundToEven n u ∧ roundToEven n u ≤ n / u * u + u := by
  unfold roundToEven
  split_ifs <;> (try simp only [Nat.add_mul, one_mul]) <;> omega

theorem roundToEven_mono (a b u : Nat) (hu : 0 < u) (h : a ≤ b) :
    roundToEven a u ≤ roundToEven b u := by
  have hq : a / u ≤ b / u := Nat.div_le_div_right h
  rcases Nat.lt_or_ge (a / u) (b / u) with hlt | hge
  · have h1 := (roundToEven_bounds a u hu).2
    have h2 := (roundToEven_bounds b u hu).1
    have h3 : (a / u + 1) * u ≤ b / u * u := Nat.mul_le_mul_right u hlt
    rw [Nat.add_mul, one_mul] at h3
    omega
  · have he : a / u = b / u := le_antisymm hq hge
    have ha := Nat.div_add_mod a u
    have hb := Nat.div_add_mod b u
    have hu' : u * (a / u) = a / u * u := Nat.mul_comm _ _
    unfold roundToEven
    rw [← he]
    rw [← he] at hb
    split_ifs <;> (try simp only [Nat.add_mul, one_mul]) <;> omega

theorem round_mono (a b : Nat) (h : a ≤ b) :
    roundToEven a (ulp a a) ≤ roundToEven b (ulp b b) := by
  obtain ⟨ka, hua, halt, hage⟩ := ulp_spec a a (le_refl a)
  obtain ⟨kb, hub, hblt, hbge⟩ := ulp_spec b b (le_refl b)
  rw [hua, hub]
  have hpa : 0 < 2 ^ ka := Nat.two_pow_pos _
  have hpb : 0 < 2 ^ kb := Nat.two_pow_pos _
  rcases Nat.lt_trichotomy ka kb with hk | hk | hk
  · have h1 := (roundToEven_bounds a (2 ^ ka) hpa).2
    have h2 := (roundToEven_bounds b (2 ^ kb) hpb).1
    have hqa : a / 2 ^ ka < 2 ^ 53 := (Nat.div_lt_iff_lt_mul hpa).mpr halt
    have hqa' : a / 2 ^ ka * 2 ^ ka + 2 ^ ka ≤ 2 ^ 53 * 2 ^ ka := by
      have := Nat.mul_le_mul_right (2 ^ ka) (Nat.succ_le_of_lt hqa)
      rwa [Nat.succ_mul] at this
    have hqb : 2 ^ 52 ≤ b / 2 ^ kb :=
      (Nat.le_div_iff_mul_le hpb).mpr (hbge (by omega))
    have hqb' : 2 ^ 52 * 2 ^ kb ≤ b / 2 ^ kb * 2 ^ kb := Nat.mul_le_mul_right _ hqb
    have hpow : 2 ^ 53 * 2 ^ ka ≤ 2 ^ 52 * 2 ^ kb := by
      have : 2 ^ (ka + 1) ≤ 2 ^ kb := Nat.pow_le_pow_right (by decide) hk
      calc 2 ^ 53 * 2 ^ ka = 2 ^ 52 * 2 ^ (ka + 1) := by rw [pow_succ]; ring
        _ ≤ 2 ^ 52 * 2 ^ kb := Nat.mul_le_mul_left _ this
    omega
  · rw [hk]
    exact roundToEven_mono a b (2 ^ kb) hpb h
  · exfalso
    have h1 := hage (by omega)
    have : 2 ^ (kb + 1) ≤ 2 ^ ka := Nat.pow_le_pow_right (by decide) hk
    have h2 : 2 ^ 53 * 2 ^ kb ≤ 2 ^ 52 * 2 ^ ka := by
      calc 2 ^ 53 * 2 ^ kb = 2 ^ 52 * 2 ^ (kb + 1) := by rw [pow_succ]; ring
        _ ≤ 2 ^ 52 * 2 ^ ka := Nat.mul_le_mul_left _ this
    omega

/-- Integers up to `2 ^ 53` in magnitude are binary64 numbers. -/
theorem float64_exact (i : Int) (h : i.natAbs ≤ 2 ^ 53) : float64 i = i := by
  rcases Nat.lt_or_ge i.natAbs (2 ^ 53) with h1 | h1
  · unfold float64
    rw [ulp_of_lt _ _ h1, roundToEven_one]
    exact Int.sign_mul_natAbs i
  · have h2 : i.natAbs = 2 ^ 53 := le_antisymm h h1
    have h3 : i = 2 ^ 53 ∨ i = -(2 ^ 53) := by omega
    rcases h3 with h3 | h3 <;> subst h3 <;> decide

/-- Rounding to binary64 keeps the order. -/
theorem float64_mono (i j : Int) (h : i ≤ j) : float64 i ≤ float64 j := by
  unfold float64
  rcases lt_trichotomy i 0 with hi | hi | hi
  · rw [Int.sign_eq_neg_one_of_neg hi]
    rcases lt_trichotomy j 0 with hj | hj | hj
    · rw [Int.sign_eq_neg_one_of_neg hj]
      have := round_mono j.natAbs i.natAbs (by omega)
      omega
    · subst hj
      simp
    · rw [Int.sign_eq_one_of_pos hj]
      omega
  · subst hi
    rcases lt_trichotomy j 0 with hj | hj | hj
    · omega
    · subst hj
      exact le_refl _
    · rw [Int.sign_eq_one_of_pos hj]
      simp
  · have hj : 0 < j := by omega
    rw [Int.sign_eq_one_of_pos hi, Int.sign_eq_one_of_pos hj]
    have := round_mono i.natAbs j.natAbs (by omega)
    omega

/-! ## The update functions in closed form -/

theorem store_getOrCreate {α : Type} (new : α) (m : Family α) (lvs : LabelValues) (v : α) :
    (getOrCreate new m lvs).store v = Function.update m lvs (some v) := by
  funext l
  by_cases h : l = lvs <;> simp [Metric.store, getOrCreate, Function.update_apply, h]

theorem getOrCreate_value {α : Type} (new : α) (m : Family α) (lvs : LabelValues) :
    (getOrCreate new m lvs).value = (m lvs).getD new := rfl

theorem WithLabelValues_eq_none_iff {α : Type} (c : Collector) (new : α) (m : Family α)
    (lvs : LabelValues) :
    WithLabelValues c new m lvs = none ↔ lvs.length ≠ c.desc.variableLabels.length := by
  unfold WithLabelValues
  split <;> simp [*]

theorem UpdateNodeAdded_eq (s : State) (g : String) :
    UpdateNodeAdded s g = some { s with
      nodegroupstate :=
        Function.update s.nodegroupstate [g] (some (float64 (s.nodeGroupSize g + 1))) } := by
  simp [UpdateNodeAdded, WithLabelValues, nodegroupstate, NewGaugeVec, NewDesc, Gauge.Inc,
    store_getOrCreate, getOrCreate_value, State.nodeGroupSize]

theorem UpdateNodeRemoved_eq (s : State) (g : String) :
    UpdateNodeRemoved s g = some { s with
      nodegroupstate :=
        Function.update s.nodegroupstate [g] (some (float64 (s.nodeGroupSize g + -1))) } := by
  simp [UpdateNodeRemoved, WithLabelValues, nodegroupstate, NewGaugeVec, NewDesc, Gauge.Dec,
    store_getOrCreate, getOrCreate_value, State.nodeGroupSize]

theorem UpdateNodeGroupState_eq (s : State) (g : String) (current : Int) :
    UpdateNodeGroupState s g current = some { s with
      nodegroupstate := Function.update s.nodegroupstate [g] (some (float64 current)) } := by
  simp [UpdateNodeGroupState, WithLabelValues, nodegroupstate, NewGaugeVec, NewDesc, Gauge.Set,
    store_getOrCreate]

theorem UpdateNodeGroupMinState_eq (s : State) (g : String) (min : Int) :
    UpdateNodeGroupMinState s g min = some { s with
      nodegroupminstate := Function.update s.nodegroupminstate [g] (some (float64 min)) } := by
  simp [UpdateNodeGroupMinState, WithLabelValues, nodegroupminstate, NewGaugeVec, NewDesc,
    Gauge.Set, store_getOrCreate]

theorem UpdateNodeGroupMaxState_eq (s : State) (g : String) (max : Int) :
    UpdateNodeGroupMaxState s g max = some { s with
      nodegroupmaxstate := Function.update s.nodegroupmaxstate [g] (some (float64 max)) } := by
  simp [UpdateNodeGroupMaxState, WithLabelValues, nodegroupmaxstate, NewGaugeVec, NewDesc,
    Gauge.Set, store_getOrCreate]

theorem UpdateLastTime_eq (s : State) (label : String) (now : Time) :
    UpdateLastTime s label now = some { s with
      lastTimestamp := Function.update s.lastTimestamp [label] (some (float64 now.Unix)) } := by
  simp [UpdateLastTime, WithLabelValues, lastTimestamp, NewGaugeVec, NewDesc, Gauge.Set,
    store_getOrCreate]

theorem UpdateScaleFailures_eq (s : State) (g t : String) :
    UpdateScaleFailures s g t = some { s with
      scalefailures :=
        Function.update s.scalefailures [g, t] (some (s.scaleFailureCount g t + 1)) } := by
  simp [UpdateScaleFailures, WithLabelValues, scalefailures, NewCounterVec, NewDesc, Counter.Inc,
    store_getOrCreate, getOrCreate_value, State.scaleFailureCount]

theorem UpdateDuration_eq (s : State) (label : String) (start now1 now2 : Time) :
    UpdateDuration s label start now1 now2 = some { s with
      duration := Function.update s.duration [label]
        (some { count := (s.durationSummary label).count + 1
                sum := float64 ((s.durationSummary label).sum + durationToMicro now1 start) })
      lastDuration :=
        Function.update s.lastDuration [label] (some (durationToMicro now2 start)) } := by
  simp [UpdateDuration, WithLabelValues, duration, lastDuration, NewSummaryVec, NewGaugeVec,
    NewDesc, Gauge.Set, Summary.Observe, store_getOrCreate, getOrCreate_value,
    State.durationSummary]

/-! ## Sequences of unit changes of a node group size -/

theorem labels_pair_eq_iff (g t g0 t0 : String) : [g, t] = [g0, t0] ↔ (g0, t0) = (g, t) := by
  constructor
  · intro h
    injection h with h1 h2
    injection h2 with h2 _
    rw [h1, h2]
  · intro h
    injection h with h1 h2
    rw [h1, h2]

/-- The counters after a sequence of `UpdateScaleFailures` calls. -/
theorem runCalls_failureCalls (calls : List (String × String)) (s : State) :
    ∃ s', runCalls s (calls.map failureCall) = some s' ∧
      ∀ g t, s'.scalefailures [g, t] =
        if calls.count (g, t) = 0 then s.scalefailures [g, t]
        else some (s.scaleFailureCount g t + calls.count (g, t)) := by
  induction calls generalizing s with
  | nil => exact ⟨s, rfl, fun g t => by simp⟩
  | cons p ps ih =>
    obtain ⟨g0, t0⟩ := p
    obtain ⟨s', hrun, hval⟩ := ih { s with
      scalefailures :=
        Function.update s.scalefailures [g0, t0] (some (s.scaleFailureCount g0 t0 + 1)) }
    refine ⟨s', ?_, ?_⟩
    · simp only [List.map_cons, failureCall, runCalls, Call.run, UpdateScaleFailures_eq,
        Option.some_bind]
      exact hrun
    · intro g t
      rw [hval g t]
      by_cases hp : (g0, t0) = (g, t)
      · have hl : [g, t] = [g0, t0] := (labels_pair_eq_iff g t g0 t0).mpr hp
        injection hp with hg ht
        subst hg ht
        by_cases hc : List.count (g0, t0) ps = 0
        · simp [hc, State.scaleFailureCount]
        · simp [hc, State.scaleFailureCount]
          omega
      · have hl : [g, t] ≠ [g0, t0] := fun h => hp ((labels_pair_eq_iff g t g0 t0).mp h)
        have hc : List.count (g, t) ((g0, t0) :: ps) = List.count (g, t) ps :=
          List.count_cons_of_ne (fun h => hp h.symm) ps
        simp [hc, State.scaleFailureCount, Function.update_noteq hl]

/-- C2: from a state in which `node_group_scaling_failures` of `(g, t)` was never
used, every sequence of `UpdateScaleFailures` calls runs to a state in which that
counter is the number `k` of calls of the sequence made with `(g, t)`, whatever
other pairs are interleaved; the metric exists as soon as `k` is not zero. -/
theorem scale_failures_count (s : State) (g t : String) (calls : List (String × String))
    (h : s.scalefailures [g, t] = none) :
    ∃ s', runCalls s (calls.map failureCall) = some s' ∧
      s'.scaleFailureCount g t = calls.count (g, t) ∧
      (calls.count (g, t) ≠ 0 → s'.scalefailures [g, t] = some (calls.count (g, t))) := by
  obtain ⟨s', hrun, hval⟩ := runCalls_failureCalls calls s
  refine ⟨s', hrun, ?_, ?_⟩
  · unfold State.scaleFailureCount
    rw [hval g t]
    by_cases hc : List.count (g, t) calls = 0
    · simp [hc, h]
    · simp [hc, State.scaleFailureCount, h]
  · intro hc
    rw [hval g t]
    simp [hc, State.scaleFailureCount, h]

/-- C2, the scenario of the specification: three calls for `("pool-a", "quota")` and
one for `("pool-a", "timeout")` give 3 and 1. -/
theorem scale_failures_scenario :
    ∃ s', runCalls State.empty
        [Call.UpdateScaleFailures "pool-a" "quota", Call.UpdateScaleFailures "pool-a" "timeout",
         Call.UpdateScaleFailures "pool-a" "quota", Call.UpdateScaleFailures "pool-a" "quota"]
        = some s' ∧
      s'.scalefailures ["pool-a", "quota"] = some 3 ∧
      s'.scalefailures ["pool-a", "timeout"] = some 1 := by
  obtain ⟨s1, h1, _, q⟩ := scale_failures_count State.empty "pool-a" "quota"
    [("pool-a", "quota"), ("pool-a", "timeout"), ("pool-a", "quota"), ("pool-a", "quota")] rfl
  obtain ⟨s2, h2, _, r⟩ := scale_failures_count State.empty "pool-a" "timeout"
    [("pool-a", "quota"), ("pool-a", "timeout"), ("pool-a", "quota"), ("pool-a", "quota")] rfl
  have e : s2 = s1 := Option.some.inj (h2.symm.trans h1)
  subst e
  exact ⟨s2, h1, (q (by decide)).trans (by decide), (r (by decide)).trans (by decide)⟩

/-! ## Durations -/

theorem tdiv_thousand (e : Int) :
    Int.tdiv e 1000 = if 0 ≤ e then e / 1000 else -((-e) / 1000) := by
  split
  · next h => exact Int.tdiv_eq_ediv h (by decide)
  · next h =>
    have h1 : Int.tdiv (-e) 1000 = (-e) / 1000 := Int.tdiv_eq_ediv (by omega) (by decide)
    rw [← h1, Int.neg_tdiv, neg_neg]

theorem Sub_mono (start now1 now2 : Time) (h : now1.nanos ≤ now2.nanos) :
    (now1.Sub start).Nanoseconds ≤ (now2.Sub start).Nanoseconds := by
  unfold Time.Sub Duration.Nanoseconds minDuration maxDuration
  simp only
  split_ifs <;> simp only <;> omega

theorem durationToMicro_mono (start now1 now2 : Time) (h : now1.nanos ≤ now2.nanos) :
    durationToMicro now1 start ≤ durationToMicro now2 start := by
  have hs := Sub_mono start now1 now2 h
  unfold durationToMicro
  apply float64_mono
  rw [tdiv_thousand, tdiv_thousand]
  split_ifs <;> omega

/-- C3, the claim refuted: with `start` at 0 ns and the two clock reads at 999 ns
and 1000 ns, no value `d` is both the value of the gauge and the value added to
the summary: the summary receives 0 and the gauge 1. -/
theorem UpdateDuration_values_differ :
    (⟨999⟩ : Time).nanos ≤ (⟨1000⟩ : Time).nanos ∧
    ¬ ∃ s' d, UpdateDuration State.empty "main" ⟨0⟩ ⟨999⟩ ⟨1000⟩ = some s' ∧
        s'.lastDuration ["main"] = some d ∧
        s'.duration ["main"] = some { count := 0 + 1, sum := 0 + d } := by
  refine ⟨by decide, ?_⟩
  rintro ⟨s', d, h1, h2, h3⟩
  rw [UpdateDuration_eq] at h1
  have e := Option.some.inj h1
  subst e
  simp only [Function.update_same, Option.some.injEq, Summary.mk.injEq] at h2 h3
  have a : durationToMicro ⟨1000⟩ ⟨0⟩ = 1 := by decide
  have b : durationToMicro ⟨999⟩ ⟨0⟩ = 0 := by decide
  have c : (State.empty.durationSummary "main").sum = 0 := rfl
  have f : float64 (0 + 0) = 0 := by decide
  rw [a] at h2
  rw [b, c, f] at h3
  omega

/-- C3, amended: one call of `UpdateDuration` succeeds, adds exactly one observation
to `duration_microseconds` of the phase and sets `last_duration_microseconds` of
the phase to `d2`, where `d1` is `durationToMicro` at the first clock read and `d2`
at the second: the count grows by one and the sum becomes the binary64 sum of the
old sum and `d1`, which is the old sum plus `d1` when that is at most `2 ^ 53` in
magnitude; `d1 ≤ d2` when the reads do not decrease, and `d1 = d2` when the two
reads are equal. -/
theorem UpdateDuration_observes_and_sets (s : State) (label : String) (start now1 now2 : Time) :
    ∃ s', UpdateDuration s label start now1 now2 = some s' ∧
      s'.duration [label] = some
        { count := (s.durationSummary label).count + 1
          sum := float64 ((s.durationSummary label).sum + durationToMicro now1 start) } ∧
      s'.lastDuration [label] = some (durationToMicro now2 start) ∧
      (((s.durationSummary label).sum + durationToMicro now1 start).natAbs ≤ 2 ^ 53 →
        s'.duration [label] = some
          { count := (s.durationSummary label).count + 1
            sum := (s.durationSummary label).sum + durationToMicro now1 start }) ∧
      (now1.nanos ≤ now2.nanos → durationToMicro now1 start ≤ durationToMicro now2 start) ∧
      (now1 = now2 → durationToMicro now1 start = durationToMicro now2 start) := by
  refine ⟨_, UpdateDuration_eq s label start now1 now2, ?_, ?_, ?_, ?_, ?_⟩
  · simp
  · simp
  · intro hb
    simp [float64_exact _ hb]
  · exact durationToMicro_mono start now1 now2
  · intro h
    rw [h]

/-- C3, an example of the amended claim: from the state of process start, with
`start` at 0 ns and clock reads at 1500 ns and 2500 ns, the summary holds one
observation with sum 1 and the gauge holds 2. -/
theorem UpdateDuration_example :
    ∃ s', UpdateDuration State.empty "main" ⟨0⟩ ⟨1500⟩ ⟨2500⟩ = some s' ∧
      s'.duration ["main"] = some { count := 1, sum := 1 } ∧
      s'.lastDuration ["main"] = some 2 := by
  obtain ⟨s', h, _, hg, hs, _, _⟩ :=
    UpdateDuration_observes_and_sets State.empty "main" ⟨0⟩ ⟨1500⟩ ⟨2500⟩
  exact ⟨s', h, (hs (by decide)).trans (by decide), hg.trans (by decide)⟩

/-- C6: the fully qualified name of each of the seven vectors is
`cluster_autoscaler_` followed by the name of the table, its label keys are those
of the table, in order, and the seven names are pairwise distinct. -/
theorem series_names_and_labels :
    lastTimestamp.desc.fqName = "cluster_autoscaler_last_time_seconds" ∧
    lastTimestamp.desc.variableLabels = ["main"] ∧
    lastDuration.desc.fqName = "cluster_autoscaler_last_duration_microseconds" ∧
    lastDuration.desc.variableLabels = ["main"] ∧
    duration.desc.fqName = "cluster_autoscaler_duration_microseconds" ∧
    duration.desc.variableLabels = ["main"] ∧
    nodegroupminstate.desc.fqName = "cluster_autoscaler_node_group_min_spec" ∧
    nodegroupminstate.desc.variableLabels = ["node_group"] ∧
    nodegroupmaxstate.desc.fqName = "cluster_autoscaler_node_group_max_spec" ∧
    nodegroupmaxstate.desc.variableLabels = ["node_group"] ∧
    nodegroupstate.desc.fqName = "cluster_autoscaler_node_group_size" ∧
    nodegroupstate.desc.variableLabels = ["node_group"] ∧
    scalefailures.desc.fqName = "cluster_autoscaler_node_group_scaling_failures" ∧
    scalefailures.desc.variableLabels = ["node_group", "type"] ∧
    (Series.all.map (fun x => x.collector.desc.fqName)).Nodup := by
  decide

/-- C4, what `init` does: run on the empty registry it registers `duration`,
`lastDuration` and `lastTimestamp` and nothing else; none of the four node group
vectors is registered, while `UpdateNodeGroupState` still writes to
`node_group_size`. -/
theorem init_registers_three_vectors :
    init [] = some [duration.desc, lastDuration.desc, lastTimestamp.desc] ∧
    (Series.all.filter (fun x => decide
        (x.collector.desc ∈ [duration.desc, lastDuration.desc, lastTimestamp.desc])))
      = [Series.last_time_seconds, Series.last_duration_microseconds,
         Series.duration_microseconds] ∧
    nodegroupminstate.desc ∉ [duration.desc, lastDuration.desc, lastTimestamp.desc] ∧
    nodegroupmaxstate.desc ∉ [duration.desc, lastDuration.desc, lastTimestamp.desc] ∧
    nodegroupstate.desc ∉ [duration.desc, lastDuration.desc, lastTimestamp.desc] ∧
    scalefailures.desc ∉ [duration.desc, lastDuration.desc, lastTimestamp.desc] ∧
    (∃ s', UpdateNodeGroupState State.empty "pool-a" 5 = some s' ∧
      s'.read Series.node_group_size ["pool-a"] = some (Sample.gauge 5)) := by
  refine ⟨by decide, by decide, by decide, by decide, by decide, by decide, ?_⟩
  have e : float64 5 = 5 := by decide
  exact ⟨_, UpdateNodeGroupState_eq State.empty "pool-a" 5, by simp [State.read, e]⟩

/-! ## The update functions never fail -/

theorem Call.run_isSome (s : State) (c : Call) : (c.run s).isSome = true := by
  cases c <;>
    simp [Call.run, UpdateDuration_eq, UpdateLastTime_eq, UpdateNodeGroupMinState_eq,
      UpdateNodeGroupMaxState_eq, UpdateNodeGroupState_eq, UpdateNodeRemoved_eq,
      UpdateNodeAdded_eq, UpdateScaleFailures_eq]

theorem runCalls_isSome (calls : List Call) (s : State) : (runCalls s calls).isSome = true := by
  induction calls generalizing s with
  | nil => rfl
  | cons c cs ih =>
    obtain ⟨s1, h1⟩ := Option.isSome_iff_exists.mp (Call.run_isSome s c)
    simp [runCalls, h1, ih]

/-- C7: with `WithLabelValues` failing exactly when the number of label values is
not the number of label keys, none of the update functions fails: from every state,
for every string label value and every integer argument (and every clock read),
each of them returns a state, and so does every sequence of calls. -/
theorem update_never_fails (s : State) :
    (∀ (c : Collector) (new : Int) (m : Family Int) (lvs : LabelValues),
      WithLabelValues c new m lvs = none ↔ lvs.length ≠ c.desc.variableLabels.length) ∧
    (∀ (label : String) (now : Time), (UpdateLastTime s label now).isSome = true) ∧
    (∀ (label : String) (start now1 now2 : Time),
      (UpdateDuration s label start now1 now2).isSome = true) ∧
    (∀ (nodegroup : String) (min : Int), (UpdateNodeGroupMinState s nodegroup min).isSome = true) ∧
    (∀ (nodegroup : String) (max : Int), (UpdateNodeGroupMaxState s nodegroup max).isSome = true) ∧
    (∀ (nodegroup : String) (current : Int),
      (UpdateNodeGroupState s nodegroup current).isSome = true) ∧
    (∀ nodegroup : String, (UpdateNodeAdded s nodegroup).isSome = true) ∧
    (∀ nodegroup : String, (UpdateNodeRemoved s nodegroup).isSome = true) ∧
    (∀ nodegroup failuretype : String,
      (UpdateScaleFailures s nodegroup failuretype).isSome = true) ∧
    (∀ calls : List Call, (runCalls s calls).isSome = true) := by
  refine ⟨fun c new m lvs => WithLabelValues_eq_none_iff c new m lvs, ?_, ?_, ?_, ?_, ?_, ?_,
    ?_, ?_, fun calls => runCalls_isSome calls s⟩
  · intro label now
    rw [UpdateLastTime_eq]
    rfl
  · intro label start now1 now2
    rw [UpdateDuration_eq]
    rfl
  · intro g v
    rw [UpdateNodeGroupMinState_eq]
    rfl
  · intro g v
    rw [UpdateNodeGroupMaxState_eq]
    rfl
  · intro g v
    rw [UpdateNodeGroupState_eq]
    rfl
  · intro g
    rw [UpdateNodeAdded_eq]
    rfl
  · intro g
    rw [UpdateNodeRemoved_eq]
    rfl
  · intro g t
    rw [UpdateScaleFailures_eq]
    rfl

/-- C7, at the empty label value: every update function succeeds on the empty
string from the state of process start. -/
theorem update_never_fails_empty_label :
    (UpdateLastTime State.empty "" ⟨0⟩).isSome = true ∧
    (UpdateDuration State.empty "" ⟨0⟩ ⟨0⟩ ⟨0⟩).isSome = true ∧
    (UpdateNodeGroupMinState State.empty "" (-1)).isSome = true ∧
    (UpdateScaleFailures State.empty "" "").isSome = true := by
  have h := update_never_fails State.empty
  exact ⟨h.2.1 "" ⟨0⟩, h.2.2.1 "" ⟨0⟩ ⟨0⟩ ⟨0⟩, h.2.2.2.1 "" (-1), h.2.2.2.2.2.2.2.2.1 "" ""⟩

/-! ## Bounds of a node group -/

/-- C8, the claim refuted: `UpdateNodeGroupMinState "pool-a" 9007199254740993`
(`2 ^ 53 + 1`) and `UpdateNodeGroupMaxState "pool-a" 9223372036854775807` leave
`node_group_min_spec` at 9007199254740992 and `node_group_max_spec` at
9223372036854775808, not at the arguments. -/
theorem min_max_round :
    ∃ s', (UpdateNodeGroupMinState State.empty "pool-a" 9007199254740993).bind
        (fun s1 => UpdateNodeGroupMaxState s1 "pool-a" 9223372036854775807) = some s' ∧
      s'.nodegroupminstate ["pool-a"] = some 9007199254740992 ∧
      s'.nodegroupminstate ["pool-a"] ≠ some 9007199254740993 ∧
      s'.nodegroupmaxstate ["pool-a"] = some 9223372036854775808 ∧
      s'.nodegroupmaxstate ["pool-a"] ≠ some 9223372036854775807 := by
  have e1 : float64 9007199254740993 = 9007199254740992 := by decide
  have e2 : float64 9223372036854775807 = 9223372036854775808 := by decide
  refine ⟨{ State.empty with
    nodegroupminstate :=
      Function.update State.empty.nodegroupminstate ["pool-a"] (some 9007199254740992)
    nodegroupmaxstate :=
      Function.update State.empty.nodegroupmaxstate ["pool-a"] (some 9223372036854775808) },
    ?_, ?_, ?_, ?_, ?_⟩
  · simp [UpdateNodeGroupMinState_eq, UpdateNodeGroupMaxState_eq, e1, e2]
  · simp
  · simp
  · simp
  · simp

/-- C8, amended: for every node group `g` and integers `a` and `b`,
`UpdateNodeGroupMinState g a` and `UpdateNodeGroupMaxState g b` commute: run in
either order from the same state they succeed with the same final state, in which
`node_group_min_spec` of `g` is `float64(a)` and `node_group_max_spec` of `g` is
`float64(b)`; these are `a` and `b` themselves when `a` and `b` are at most
`2 ^ 53` in magnitude; there is no condition relating `a` and `b`. -/
theorem min_max_commute (s : State) (g : String) (a b : Int) :
    ∃ s', (UpdateNodeGroupMinState s g a).bind (fun s1 => UpdateNodeGroupMaxState s1 g b)
        = some s' ∧
      (UpdateNodeGroupMaxState s g b).bind (fun s1 => UpdateNodeGroupMinState s1 g a)
        = some s' ∧
      s'.nodegroupminstate [g] = some (float64 a) ∧
      s'.nodegroupmaxstate [g] = some (float64 b) ∧
      (a.natAbs ≤ 2 ^ 53 → s'.nodegroupminstate [g] = some a) ∧
      (b.natAbs ≤ 2 ^ 53 → s'.nodegroupmaxstate [g] = some b) := by
  refine ⟨{ s with
    nodegroupminstate := Function.update s.nodegroupminstate [g] (some (float64 a))
    nodegroupmaxstate := Function.update s.nodegroupmaxstate [g] (some (float64 b)) },
    ?_, ?_, ?_, ?_, ?_, ?_⟩
  · simp [UpdateNodeGroupMinState_eq, UpdateNodeGroupMaxState_eq]
  · simp [UpdateNodeGroupMinState_eq, UpdateNodeGroupMaxState_eq]
  · simp
  · simp
  · intro ha
    simp [float64_exact a ha]
  · intro hb
    simp [float64_exact b hb]

/-- C8, the examples: minimum 3 and maximum 10 in either order, and a minimum above
the maximum (10 and 3), are both accepted. -/
theorem min_max_examples :
    (∃ s', (UpdateNodeGroupMinState State.empty "pool-a" 3).bind
        (fun s1 => UpdateNodeGroupMaxState s1 "pool-a" 10) = some s' ∧
      (UpdateNodeGroupMaxState State.empty "pool-a" 10).bind
        (fun s1 => UpdateNodeGroupMinState s1 "pool-a" 3) = some s' ∧
      s'.nodegroupminstate ["pool-a"] = some 3 ∧ s'.nodegroupmaxstate ["pool-a"] = some 10) ∧
    (∃ s', (UpdateNodeGroupMinState State.empty "pool-a" 10).bind
        (fun s1 => UpdateNodeGroupMaxState s1 "pool-a" 3) = some s' ∧
      (UpdateNodeGroupMaxState State.empty "pool-a" 3).bind
        (fun s1 => UpdateNodeGroupMinState s1 "pool-a" 10) = some s' ∧
      s'.nodegroupminstate ["pool-a"] = some 10 ∧ s'.nodegroupmaxstate ["pool-a"] = some 3) := by
  obtain ⟨s1, a1, b1, _, _, c1, d1⟩ := min_max_commute State.empty "pool-a" 3 10
  obtain ⟨s2, a2, b2, _, _, c2, d2⟩ := min_max_commute State.empty "pool-a" 10 3
  exact ⟨⟨s1, a1, b1, c1 (by decide), d1 (by decide)⟩,
    ⟨s2, a2, b2, c2 (by decide), d2 (by decide)⟩⟩

/-! ## Time of the last start of a phase -/

/-- C9: for every phase `p`, `UpdateLastTime p` made when the clock reads `now`
succeeds and sets `last_time_seconds` of `p` to `float64(now.Unix())`, whatever
the series held before; for every clock read of at most `2 ^ 53` seconds in
magnitude this is `now.Unix()`, the whole seconds `t` since the Unix epoch (the
`t` with `t` s `≤ now <` `t + 1` s); a second call for `p` with clock read `now2`
overwrites it in the same way. -/
theorem last_time_is_set (s : State) (p : String) (now now2 : Time) :
    ∃ s1 s2, UpdateLastTime s p now = some s1 ∧
      s1.lastTimestamp [p] = some (float64 now.Unix) ∧
      (now.Unix.natAbs ≤ 2 ^ 53 → s1.lastTimestamp [p] = some now.Unix) ∧
      (∀ t : Int, t.natAbs ≤ 2 ^ 53 →
        1000000000 * t ≤ now.nanos → now.nanos < 1000000000 * (t + 1) →
        s1.lastTimestamp [p] = some t) ∧
      UpdateLastTime s1 p now2 = some s2 ∧
      s2.lastTimestamp [p] = some (float64 now2.Unix) ∧
      (now2.Unix.natAbs ≤ 2 ^ 53 → s2.lastTimestamp [p] = some now2.Unix) := by
  refine ⟨_, _, UpdateLastTime_eq s p now, ?_, ?_, ?_, UpdateLastTime_eq _ p now2, ?_, ?_⟩
  · simp
  · intro h
    simp [float64_exact _ h]
  · intro t ht h1 h2
    have e : now.Unix = t := by
      unfold Time.Unix
      omega
    simp [e, float64_exact t ht]
  · simp
  · intro h
    simp [float64_exact _ h]

/-- C9, an example: clock reads of 1500000000.7 s and then 1500000060.2 s leave
1500000060. -/
theorem last_time_example :
    ∃ s1 s2, UpdateLastTime State.empty "main" ⟨1500000000700000000⟩ = some s1 ∧
      s1.lastTimestamp ["main"] = some 1500000000 ∧
      UpdateLastTime s1 "main" ⟨1500000060200000000⟩ = some s2 ∧
      s2.lastTimestamp ["main"] = some 1500000060 := by
  obtain ⟨s1, s2, h1, _, h2, _, h3, _, h4⟩ :=
    last_time_is_set State.empty "main" ⟨1500000000700000000⟩ ⟨1500000060200000000⟩
  exact ⟨s1, s2, h1, (h2 (by decide)).trans (by decide), h3, (h4 (by decide)).trans (by decide)⟩

/-! ## Frame -/

theorem update_map_of_ne {α β : Type} (f : Family α) (k l : LabelValues) (v : Option α)
    (w : α → β) (h : l ≠ k) : (Function.update f k v l).map w = (f l).map w := by
  rw [Function.update_noteq h]

theorem update_map_isSome {α β : Type} (f : Family α) (k l : LabelValues) (v : α)
    (w : α → β) (h : ((f l).map w).isSome = true) :
    ((Function.update f k (some v) l).map w).isSome = true := by
  by_cases e : l = k
  · subst e
    simp
  · rw [Function.update_noteq e]
    exact h

theorem update_some_mono (f : Family Nat) (k l : LabelValues) (v n : Nat)
    (h : f l = some n) (hv : (f k).getD 0 ≤ v) :
    ∃ n', Function.update f k (some v) l = some n' ∧ n ≤ n' := by
  by_cases e : l = k
  · subst e
    refine ⟨v, Function.update_same _ _ _, ?_⟩
    simpa [h] using hv
  · exact ⟨n, by rw [Function.update_noteq e]; exact h, le_refl n⟩

/-- C10: every call succeeds, leaves the value of every series instance it does not
name as it was (`UpdateDuration` names `duration_microseconds` and
`last_duration_microseconds` of its phase; every other function names the one
instance of its series with the given label values), removes no existing
instance, and never lowers a `node_group_scaling_failures` counter. -/
theorem call_frame (s : State) (c : Call) :
    ∃ s', c.run s = some s' ∧
      (∀ (x : Series) (l : LabelValues), (x, l) ∉ c.names → s'.read x l = s.read x l) ∧
      (∀ (x : Series) (l : LabelValues),
        (s.read x l).isSome = true → (s'.read x l).isSome = true) ∧
      (∀ (l : LabelValues) (n : Nat), s.scalefailures l = some n →
        ∃ n', s'.scalefailures l = some n' ∧ n ≤ n') := by
  cases c
  all_goals
    simp only [Call.run, UpdateDuration_eq, UpdateLastTime_eq, UpdateNodeGroupMinState_eq,
      UpdateNodeGroupMaxState_eq, UpdateNodeGroupState_eq, UpdateNodeRemoved_eq,
      UpdateNodeAdded_eq, UpdateScaleFailures_eq, Option.some.injEq, exists_eq_left']
    refine ⟨?_, ?_, ?_⟩
    · intro x l h
      cases x <;> simp only [Call.names, List.mem_cons, Prod.mk.injEq, List.mem_singleton,
        List.not_mem_nil, reduceCtorEq, false_and, true_and, or_false, false_or, or_self,
        not_false_eq_true] at h <;>
        first
          | rfl
          | exact update_map_of_ne _ _ _ _ _ h
    · intro x l h
      cases x <;> first
        | exact h
        | exact update_map_isSome _ _ _ _ _ h
    · intro l n h
      first
        | exact ⟨n, h, le_refl n⟩
        | exact update_some_mono _ _ _ _ _ h (Nat.le_succ _)

/-- C10, an example: after one scale failure of `("pool-a", "quota")`, the call
`UpdateNodeGroupState "pool-a" 5` leaves that counter at 1 and creates no
`node_group_size` instance for `"pool-b"`. -/
theorem call_frame_example :
    ∃ s1 s2, UpdateScaleFailures State.empty "pool-a" "quota" = some s1 ∧
      Call.run s1 (Call.UpdateNodeGroupState "pool-a" 5) = some s2 ∧
      s2.read Series.node_group_scaling_failures ["pool-a", "quota"]
        = some (Sample.counter 1) ∧
      s2.read Series.node_group_size ["pool-b"] = none ∧
      s2.read Series.node_group_size ["pool-a"] = some (Sample.gauge 5) := by
  obtain ⟨s2, hrun, hframe, _, _⟩ := call_frame
    { State.empty with
      scalefailures := Function.update State.empty.scalefailures ["pool-a", "quota"]
        (some (State.empty.scaleFailureCount "pool-a" "quota" + 1)) }
    (Call.UpdateNodeGroupState "pool-a" 5)
  refine ⟨_, s2, UpdateScaleFailures_eq State.empty "pool-a" "quota", hrun, ?_, ?_, ?_⟩
  · rw [hframe Series.node_group_scaling_failures ["pool-a", "quota"] (by decide)]
    simp [State.read, State.scaleFailureCount, State.empty]
  · rw [hframe Series.node_group_size ["pool-b"] (by decide)]
    simp [State.read, State.empty]
  · have e : float64 5 = 5 := by decide
    rw [Call.run, UpdateNodeGroupState_eq, e] at hrun
    rw [← Option.some.inj hrun]
    simp [State.read]

end Metrics
